import Mathlib

/-!
Verification development for the archive-backed chunk provider
(`src/zip_chunk_provider.rs` of the `anvil-region` crate).

The development shallowly embeds `ZipChunkProvider` and its two operations
`load_chunk` / `save_chunk`, together with the constructor `new`, over models
of the external collaborators (the zip archive and the region-format reader).

Modelling conventions:
* byte buffers (`Vec<u8>`) are `List Nat`;
* the zip archive handle is modelled by its observable behaviour: the outcome
  of `ZipArchive::new`, the sequence of `by_index` results seen by the
  constructor scan, and a `by_name` lookup function used by `load_chunk`;
* Rust panics are modelled by the `PanicOr` outcome type: a panicking call
  returns `.panic msg` and no value of the ordinary return type;
* the `HashMap<(i32, i32), Vec<u8>>` cache is modelled as a function
  `Int × Int → Option (List Nat)`, with insertion by pointwise update.
-/

/-- Decompressed byte buffers (`Vec<u8>` in the source). -/
abbrev Bytes := List Nat

/-- Decoded chunk payload (`nbt::CompoundTag`), an external collaborator's
type consumed opaquely; modelled as an abstract numeric token. -/
abbrev CompoundTag := Nat

/-- Outcome of a Rust call that may panic: either the ordinary value or a
panic carrying the panic message. A `.panic` outcome yields no value of
`α` at all, so nothing partially constructed is observable. -/
inductive PanicOr (α : Type) where
  | ok (a : α)
  | panic (msg : String)
deriving DecidableEq

/-- Errors of the external `zip` crate (`ZipError`): a missing entry is
distinct from I/O failures and from archive corruption. -/
inductive ZipError where
  | fileNotFound
  | ioError (code : Nat)
  | invalidArchive
deriving DecidableEq

/-- Modelled from the spec: `ChunkLoadError` is declared in the crate root,
which is not among the provided sources. Variants follow the spec's error
taxonomy: a recoverable missing region, region-format decode errors
(missing chunk slot, malformed data) and propagated I/O errors. -/
inductive ChunkLoadError where
  | regionNotFound (region_x region_z : Int)
  | chunkNotFound (chunk_x chunk_z : Int)
  | ioError (code : Nat)
  | malformedData (code : Nat)
deriving DecidableEq

/-- Modelled from the spec: `ChunkSaveError` is declared in the crate root,
which is not among the provided sources; `save_chunk` never constructs a
value of it (it panics), so only an ordinary-save-error variant is needed. -/
inductive ChunkSaveError where
  | ioError (code : Nat)
deriving DecidableEq

deriving instance DecidableEq for Except

/-- One archive entry as observed through the zip collaborator: its raw
entry name (`file.name()`), its declared uncompressed size (`file.size()`,
used by the source only as a capacity hint) and the outcome of
`read_to_end` on it (either an I/O error code or the decompressed bytes). -/
structure ZipEntry where
  name : String
  size : Nat
  readResult : Except Nat Bytes
deriving DecidableEq

/-- Splitting a character list at `/` separators. -/
def splitOnSlash : List Char → List (List Char)
  | [] => [[]]
  | c :: rest =>
    match splitOnSlash rest with
    | [] => if c = '/' then [[], []] else [[c]]
    | comp :: comps =>
      if c = '/' then [] :: comp :: comps
      else (c :: comp) :: comps

/-- The final path component of a sanitized entry name:
`file.sanitized_name().file_name()` in the source. The path is split at
`/` and the last nonempty component is returned (a trailing separator, as
in directory entries like `"world/region/"`, is ignored, matching
`PathBuf::file_name`). -/
def fileNameOf (path : String) : Option String :=
  (((splitOnSlash path.toList).filter (fun s => s ≠ [])).getLast?).map
    (fun cs => String.mk cs)

/-- The zip archive handle as consumed by the constructor and by
`load_chunk`: the outcome of `ZipArchive::new(reader)`, the per-index
results of `by_index` over `0..len`, and the behaviour of `by_name`. -/
structure ZipReader where
  openResult : Except ZipError Unit
  entries : List (Except ZipError ZipEntry)
  byName : String → Except ZipError ZipEntry

/-- The provider state (`ZipChunkProvider`): the archive handle's `by_name`
behaviour, the discovered region folder path (field `region_prefix` in the
source: a string ending in `/`, default `"region/"`), and the cache from
region coordinate to decompressed buffer. -/
structure ProviderState where
  byName : String → Except ZipError ZipEntry
  regionDir : String
  cache : Int × Int → Option Bytes

/-- Modelled from the spec: `RegionAndOffset` and `RegionAndOffset::from_chunk`
are defined in the crate root, which is not among the provided sources. The
spec defines the translation by floor division of each axis by 32, the
in-region offset being `chunk - region * 32`. -/
structure RegionAndOffset where
  region_x : Int
  region_z : Int
  region_chunk_x : Int
  region_chunk_z : Int
deriving DecidableEq

/-- Modelled from the spec: chunk coordinate to region coordinate and
in-region offset, by floor division (`Int.fdiv`) by 32. -/
def RegionAndOffset.from_chunk (chunk_x chunk_z : Int) : RegionAndOffset :=
  { region_x := Int.fdiv chunk_x 32
    region_z := Int.fdiv chunk_z 32
    region_chunk_x := chunk_x - Int.fdiv chunk_x 32 * 32
    region_chunk_z := chunk_z - Int.fdiv chunk_z 32 * 32 }

/-- The cache key used for a chunk coordinate: the region coordinate pair
computed by `RegionAndOffset.from_chunk`. -/
def regionKey (chunk_x chunk_z : Int) : Int × Int :=
  ((RegionAndOffset.from_chunk chunk_x chunk_z).region_x,
   (RegionAndOffset.from_chunk chunk_x chunk_z).region_z)

/-- `region_path`: formats the archive entry name of a region,
`"{region_prefix}r.{region_x}.{region_z}.mca"`. -/
def region_path (dir : String) (region_x region_z : Int) : String :=
  dir ++ "r." ++ toString region_x ++ "." ++ toString region_z ++ ".mca"

/-- Modelled from the spec: the region-format collaborator (`AnvilRegion`,
defined in the crate root, not among the provided sources). Its observable
behaviour over a decompressed buffer: whether `AnvilRegion::new` over a
cursor on the buffer fails (and with which load error), and what
`read_chunk` at an in-region offset returns. -/
structure AnvilModel where
  newResult : Bytes → Option ChunkLoadError
  readChunk : Bytes → Int → Int → Except ChunkLoadError CompoundTag

/-- The tail of `load_chunk` after the buffer is available:
`AnvilRegion::new(Cursor::new(buf))?` followed by
`region.read_chunk(region_chunk_x, region_chunk_z)`. -/
def anvilReadChunk (A : AnvilModel) (buf : Bytes) (rcx rcz : Int) :
    Except ChunkLoadError CompoundTag :=
  match A.newResult buf with
  | some e => .error e
  | none => A.readChunk buf rcx rcz

/-- Cache insertion: `self.cache.insert((region_x, region_z), buf.clone())`. -/
def cacheInsert (c : Int × Int → Option Bytes) (k : Int × Int) (buf : Bytes) :
    Int × Int → Option Bytes :=
  fun k' => if k' = k then some buf else c k'

/-- `load_chunk(chunk_x, chunk_z)`. Translates the chunk coordinate, looks
the region up in the cache; on a miss it opens the entry named by
`region_path` (any failure of `by_name` is mapped to `RegionNotFound`),
reads it fully (`read_to_end`, whose failure propagates as an I/O error
via `?` before any cache insertion), inserts the buffer into the cache,
and finally hands the buffer to the region-format reader. Returns the
result together with the provider state after the call. -/
def loadChunk (A : AnvilModel) (st : ProviderState) (chunk_x chunk_z : Int) :
    Except ChunkLoadError CompoundTag × ProviderState :=
  let ro := RegionAndOffset.from_chunk chunk_x chunk_z
  match st.cache (ro.region_x, ro.region_z) with
  | some buf => (anvilReadChunk A buf ro.region_chunk_x ro.region_chunk_z, st)
  | none =>
    match st.byName (region_path st.regionDir ro.region_x ro.region_z) with
    | .error _ => (.error (.regionNotFound ro.region_x ro.region_z), st)
    | .ok entry =>
      match entry.readResult with
      | .error code => (.error (.ioError code), st)
      | .ok buf =>
        (anvilReadChunk A buf ro.region_chunk_x ro.region_chunk_z,
         { st with cache := cacheInsert st.cache (ro.region_x, ro.region_z) buf })

/-- `save_chunk`: unconditionally panics with
"Writing to ZIP archives is not supported"; the state is untouched. -/
def saveChunk (st : ProviderState) (_chunk_x _chunk_z : Int) (_chunk_compound_tag : CompoundTag) :
    PanicOr (Except ChunkSaveError Unit) × ProviderState :=
  (.panic "Writing to ZIP archives is not supported", st)

/-- The constructor's scan loop over `by_index` results: each `by_index`
failure is `unwrap`ped (panic); an entry whose sanitized final path
component is `"region"` bumps the found-count and overwrites the candidate
folder path with the entry's raw name. Returns the final count and path. -/
def scanEntries : List (Except ZipError ZipEntry) → Nat → String →
    PanicOr (Nat × String)
  | [], count, dir => .ok (count, dir)
  | .error _ :: _, _, _ => .panic "called Result::unwrap on an Err value"
  | .ok e :: rest, count, dir =>
    if fileNameOf e.name = some "region"
    then scanEntries rest (count + 1) e.name
    else scanEntries rest count dir

/-- `ZipChunkProvider::new(reader)`: `ZipArchive::new(reader).unwrap()`,
then the discovery scan starting from the default path `"region/"` and
count 0; a count of 0 or a count above 1 panics, otherwise the provider is
built with the discovered folder path and an empty cache. -/
def zipNew (r : ZipReader) : PanicOr ProviderState :=
  match r.openResult with
  | .error _ => .panic "called Result::unwrap on an Err value"
  | .ok _ =>
    match scanEntries r.entries 0 "region/" with
    | .panic m => .panic m
    | .ok (count, dir) =>
      if count = 0 then .panic "No region/ folder found, aborting"
      else if count > 1 then .panic "Found more than one region/ folder, aborting"
      else .ok { byName := r.byName, regionDir := dir, cache := fun _ => none }

/-- The number of scanned entries whose final path component is literally
`"region"` (a successfully read entry counted by the discovery scan). -/
def countRegion (entries : List (Except ZipError ZipEntry)) : Nat :=
  (entries.filter
    (fun x => match x with
      | .ok e => decide (fileNameOf e.name = some "region")
      | .error _ => false)).length

/-- The candidate folder path after scanning a list of readable entries,
starting from a default: the raw name of the last matching entry, or the
default when none matches. -/
def foldDir : List (Except ZipError ZipEntry) → String → String
  | [], dir => dir
  | .error _ :: rest, dir => foldDir rest dir
  | .ok e :: rest, dir =>
    if fileNameOf e.name = some "region" then foldDir rest e.name
    else foldDir rest dir

/-- Modelled from the spec: the claimed alternative no-discovery
construction mode, which accepts a caller-supplied folder path (default
`"region/"`) and skips the archive scan entirely. Stated here only to be
compared against the source's constructor `zipNew`; no such constructor
exists in the provided source. -/
def newWithFixedDir (dir : String) (r : ZipReader) : PanicOr ProviderState :=
  match r.openResult with
  | .error _ => .panic "called Result::unwrap on an Err value"
  | .ok _ => .ok { byName := r.byName, regionDir := dir, cache := fun _ => none }

/-- One public provider operation, for stating lifetime invariants over
call sequences. -/
inductive ProviderOp where
  | load (chunk_x chunk_z : Int)
  | save (chunk_x chunk_z : Int) (tag : CompoundTag)

/-- The provider state after one operation. -/
def stepOp (A : AnvilModel) (st : ProviderState) : ProviderOp → ProviderState
  | .load cx cz => (loadChunk A st cx cz).2
  | .save cx cz t => (saveChunk st cx cz t).2

/-- The provider state after a sequence of operations. -/
def runOps (A : AnvilModel) (st : ProviderState) : List ProviderOp → ProviderState
  | [] => st
  | op :: rest => runOps A (stepOp A st op) rest

/-- Concrete region-format model for witnesses: reader construction always
succeeds and `read_chunk` decodes the buffer's length. -/
def anvilOkModel : AnvilModel :=
  { newResult := fun _ => none, readChunk := fun buf _ _ => .ok buf.length }

/-- Concrete region-format model whose reader construction always fails
with a malformed-data error. -/
def anvilBadModel : AnvilModel :=
  { newResult := fun _ => some (.malformedData 7),
    readChunk := fun buf _ _ => .ok buf.length }

/-- Concrete provider state whose archive reports an I/O error (entry
present but unreadable, not absent) for every entry name; empty cache. -/
def stIoErr : ProviderState :=
  { byName := fun _ => .error (.ioError 5), regionDir := "region/",
    cache := fun _ => none }

/-- Concrete provider state whose archive yields, for every entry name, an
entry that decompresses to the bytes `[7, 7]`; empty cache. -/
def stOk : ProviderState :=
  { byName := fun _ => .ok { name := "r", size := 2, readResult := .ok [7, 7] },
    regionDir := "region/", cache := fun _ => none }

/-- Concrete provider state whose archive yields, for every entry name, an
entry whose full read fails with I/O error code 9; empty cache. -/
def stReadErr : ProviderState :=
  { byName := fun _ => .ok { name := "r", size := 2, readResult := .error 9 },
    regionDir := "region/", cache := fun _ => none }

/-- Whether a `by_index` read succeeded (no `unwrap` panic). -/
def exceptIsOk : Except ZipError ZipEntry → Bool
  | .ok _ => true
  | .error _ => false

/-- Concrete archive with exactly one folder whose final path component is
`region`, nested under `world/`. -/
def rOneRegion : ZipReader :=
  { openResult := .ok ()
    entries :=
      [Except.ok { name := "world/region/", size := 0, readResult := .ok [] },
       Except.ok { name := "world/region/r.0.0.mca", size := 2,
                   readResult := .ok [7, 7] }]
    byName := fun _ => .error .fileNotFound }

/-- Concrete archive holding a region file entry `region/r.0.0.mca` but no
entry whose final path component is `region` itself. -/
def rNoRegionDir : ZipReader :=
  { openResult := .ok ()
    entries :=
      [Except.ok { name := "region/r.0.0.mca", size := 2,
                   readResult := .ok [7, 7] }]
    byName := fun _ => .error .fileNotFound }

/-- Concrete reader that is not a valid zip archive: opening it fails. -/
def rBadOpen : ZipReader :=
  { openResult := .error .invalidArchive, entries := []
    byName := fun _ => .error .fileNotFound }

/-- Concrete archive that opens, but whose single `by_index` read fails. -/
def rBadIndex : ZipReader :=
  { openResult := .ok (), entries := [Except.error (ZipError.ioError 3)]
    byName := fun _ => .error .fileNotFound }

/-- Concrete provider state with a pre-populated cache entry for region
(0, 0); the archive reports every entry as absent. -/
def stCached : ProviderState :=
  { byName := fun _ => .error .fileNotFound, regionDir := "region/",
    cache := fun k => if k = (0, 0) then some [1, 2] else none }

/-- The in-region offset produced by floor division by 32 is a
non-negative remainder below 32. -/
theorem sub_fdiv_mul_range (c : Int) :
    0 ≤ c - Int.fdiv c 32 * 32 ∧ c - Int.fdiv c 32 * 32 < 32 := by
  rw [Int.fdiv_eq_ediv _ (by norm_num)]
  omega

/-- C1: `load_chunk` translates every chunk coordinate, negative values
included, by floor division: `region_x = ⌊cx/32⌋`, `region_z = ⌊cz/32⌋`,
the in-region offsets are `cx - region_x*32` and `cz - region_z*32`, both
in `[0, 32)`; in particular `cx = -1` yields `region_x = -1` and
`region_chunk_x = 31`. -/
theorem from_chunk_floor_division :
    (∀ cx cz : Int,
      (RegionAndOffset.from_chunk cx cz).region_x = Int.fdiv cx 32 ∧
      (RegionAndOffset.from_chunk cx cz).region_z = Int.fdiv cz 32 ∧
      (RegionAndOffset.from_chunk cx cz).region_chunk_x =
        cx - (RegionAndOffset.from_chunk cx cz).region_x * 32 ∧
      (RegionAndOffset.from_chunk cx cz).region_chunk_z =
        cz - (RegionAndOffset.from_chunk cx cz).region_z * 32 ∧
      0 ≤ (RegionAndOffset.from_chunk cx cz).region_chunk_x ∧
      (RegionAndOffset.from_chunk cx cz).region_chunk_x < 32 ∧
      0 ≤ (RegionAndOffset.from_chunk cx cz).region_chunk_z ∧
      (RegionAndOffset.from_chunk cx cz).region_chunk_z < 32) ∧
    (RegionAndOffset.from_chunk (-1) (-1)).region_x = -1 ∧
    (RegionAndOffset.from_chunk (-1) (-1)).region_chunk_x = 31 := by
  refine ⟨fun cx cz => ?_, by decide, by decide⟩
  obtain ⟨hx0, hx1⟩ := sub_fdiv_mul_range cx
  obtain ⟨hz0, hz1⟩ := sub_fdiv_mul_range cz
  exact ⟨rfl, rfl, rfl, rfl, hx0, hx1, hz0, hz1⟩

/-- C2 counterexample: an archive whose `by_name` fails with an I/O error
(the entry is not merely absent) still makes `load_chunk` answer
`RegionNotFound`, because the source matches `Err(_e)` and maps every
`by_name` failure to `RegionNotFound`. This refutes the claim that I/O or
corruption errors while opening the entry are never reported as
`RegionNotFound`. -/
theorem loadChunk_ioError_reported_as_regionNotFound :
    stIoErr.byName (region_path "region/" 0 0) = .error (.ioError 5) ∧
    (loadChunk anvilOkModel stIoErr 0 0).1 = .error (.regionNotFound 0 0) :=
  ⟨rfl, rfl⟩

/-- C2 amended: on a cache miss, `load_chunk` returns
`RegionNotFound { region_x, region_z }` carrying exactly the requested
region coordinates whenever opening the archive entry with the formatted
region entry name fails for any reason — absence, I/O error or corruption
alike — and leaves the provider state unchanged. -/
theorem loadChunk_open_failure_yields_regionNotFound (A : AnvilModel)
    (st : ProviderState) (cx cz : Int) (e : ZipError)
    (hmiss : st.cache (regionKey cx cz) = none)
    (hopen : st.byName (region_path st.regionDir
        (RegionAndOffset.from_chunk cx cz).region_x
        (RegionAndOffset.from_chunk cx cz).region_z) = .error e) :
    loadChunk A st cx cz =
      (.error (.regionNotFound (RegionAndOffset.from_chunk cx cz).region_x
        (RegionAndOffset.from_chunk cx cz).region_z), st) := by
  have h1 : st.cache ((RegionAndOffset.from_chunk cx cz).region_x,
      (RegionAndOffset.from_chunk cx cz).region_z) = none := hmiss
  unfold loadChunk
  simp only [h1, hopen]

/-- C2 amended, witness at a concrete input: chunk (5, -3) on an archive
whose `by_name` fails with an I/O error. -/
theorem loadChunk_open_failure_witness :
    stIoErr.cache (regionKey 5 (-3)) = none ∧
    stIoErr.byName (region_path stIoErr.regionDir
        (RegionAndOffset.from_chunk 5 (-3)).region_x
        (RegionAndOffset.from_chunk 5 (-3)).region_z) =
      .error (.ioError 5) ∧
    loadChunk anvilOkModel stIoErr 5 (-3) =
      (.error (.regionNotFound (RegionAndOffset.from_chunk 5 (-3)).region_x
        (RegionAndOffset.from_chunk 5 (-3)).region_z), stIoErr) :=
  ⟨rfl, rfl,
    loadChunk_open_failure_yields_regionNotFound anvilOkModel stIoErr 5 (-3)
      (ZipError.ioError 5) rfl rfl⟩

/-- C4: `save_chunk` with any arguments panics with the
unsupported-operation message; it never succeeds and the provider state —
in particular the cache and every cached buffer — is untouched. -/
theorem saveChunk_unconditional_panic :
    ∀ (st : ProviderState) (cx cz : Int) (tag : CompoundTag),
      saveChunk st cx cz tag =
        (.panic "Writing to ZIP archives is not supported", st) :=
  fun _ _ _ _ => rfl

/-- C6: on a cache miss, if fully reading the opened entry fails, the
failure propagates as an I/O error and the provider state is returned
unchanged — no entry, partial or empty, is inserted into the cache, so a
retry starts from a clean slate. -/
theorem loadChunk_read_failure_leaves_cache (A : AnvilModel)
    (st : ProviderState) (cx cz : Int) (entry : ZipEntry) (code : Nat)
    (hmiss : st.cache (regionKey cx cz) = none)
    (hopen : st.byName (region_path st.regionDir
        (RegionAndOffset.from_chunk cx cz).region_x
        (RegionAndOffset.from_chunk cx cz).region_z) = .ok entry)
    (hread : entry.readResult = .error code) :
    loadChunk A st cx cz = (.error (.ioError code), st) := by
  have h1 : st.cache ((RegionAndOffset.from_chunk cx cz).region_x,
      (RegionAndOffset.from_chunk cx cz).region_z) = none := hmiss
  unfold loadChunk
  simp only [h1, hopen, hread]

/-- C6 witness at a concrete input: chunk (-40, 1) on an archive whose
entry read fails with I/O code 9; the state is unchanged, the cache still
has no entry for region (-2, 0). -/
theorem loadChunk_read_failure_witness :
    stReadErr.cache (regionKey (-40) 1) = none ∧
    stReadErr.byName (region_path stReadErr.regionDir
        (RegionAndOffset.from_chunk (-40) 1).region_x
        (RegionAndOffset.from_chunk (-40) 1).region_z) =
      .ok { name := "r", size := 2, readResult := .error 9 } ∧
    loadChunk anvilOkModel stReadErr (-40) 1 =
      (.error (.ioError 9), stReadErr) :=
  ⟨rfl, rfl,
    loadChunk_read_failure_leaves_cache anvilOkModel stReadErr (-40) 1
      { name := "r", size := 2, readResult := .error 9 } 9 rfl rfl rfl⟩

/-- A cache hit: when the region of the requested chunk is already cached,
`load_chunk` reads from the cached buffer and leaves the state unchanged. -/
theorem loadChunk_hit (A : AnvilModel) (st : ProviderState) (cx cz : Int)
    (buf : Bytes) (h : st.cache (regionKey cx cz) = some buf) :
    loadChunk A st cx cz =
      (anvilReadChunk A buf (RegionAndOffset.from_chunk cx cz).region_chunk_x
        (RegionAndOffset.from_chunk cx cz).region_chunk_z, st) := by
  have h1 : st.cache ((RegionAndOffset.from_chunk cx cz).region_x,
      (RegionAndOffset.from_chunk cx cz).region_z) = some buf := h
  unfold loadChunk
  simp only [h1]

/-- After a successful `load_chunk`, the region's decompressed buffer is in
the cache. -/
theorem loadChunk_success_cached (A : AnvilModel) (st : ProviderState)
    (cx cz : Int) (t : CompoundTag)
    (h : (loadChunk A st cx cz).1 = .ok t) :
    ∃ buf, ((loadChunk A st cx cz).2).cache (regionKey cx cz) = some buf := by
  rcases hc : st.cache ((RegionAndOffset.from_chunk cx cz).region_x,
      (RegionAndOffset.from_chunk cx cz).region_z) with _ | buf
  · rcases hn : st.byName (region_path st.regionDir
        (RegionAndOffset.from_chunk cx cz).region_x
        (RegionAndOffset.from_chunk cx cz).region_z) with e | entry
    · unfold loadChunk at h
      simp [hc, hn] at h
    · rcases hr : entry.readResult with code | buf
      · unfold loadChunk at h
        simp [hc, hn, hr] at h
      · refine ⟨buf, ?_⟩
        unfold loadChunk
        simp only [hc, hn, hr]
        simp [cacheInsert, regionKey]
  · refine ⟨buf, ?_⟩
    unfold loadChunk
    simp only [hc]
    exact hc

/-- C3: after a successful `load_chunk` of some chunk, a second
`load_chunk` of any chunk mapping to the same region is served entirely
from the cached buffer: the archive is not consulted (the result and the
state are the same under an arbitrary replacement of the archive's
`by_name` behaviour, so later corruption of the archive is invisible), the
decompression is not repeated, and the provider state is unchanged. -/
theorem loadChunk_second_load_uses_cache (A : AnvilModel) (st : ProviderState)
    (cx1 cz1 cx2 cz2 : Int) (t : CompoundTag)
    (hsame : regionKey cx2 cz2 = regionKey cx1 cz1)
    (h1 : (loadChunk A st cx1 cz1).1 = .ok t) :
    ∃ buf, ((loadChunk A st cx1 cz1).2).cache (regionKey cx2 cz2) = some buf ∧
      ∀ f : String → Except ZipError ZipEntry,
        loadChunk A { (loadChunk A st cx1 cz1).2 with byName := f } cx2 cz2 =
          (anvilReadChunk A buf
            (RegionAndOffset.from_chunk cx2 cz2).region_chunk_x
            (RegionAndOffset.from_chunk cx2 cz2).region_chunk_z,
           { (loadChunk A st cx1 cz1).2 with byName := f }) := by
  obtain ⟨buf, hbuf⟩ := loadChunk_success_cached A st cx1 cz1 t h1
  refine ⟨buf, by rw [hsame]; exact hbuf, fun f => ?_⟩
  exact loadChunk_hit A _ cx2 cz2 buf (by rw [hsame]; exact hbuf)

/-- C3 witness at a concrete input: loading chunk (0, 0) from an archive
holding `[7, 7]` succeeds with payload 2; loading chunk (31, 0), which
lies in the same region (0, 0), is then served from the cache under any
archive behaviour. -/
theorem loadChunk_second_load_witness :
    regionKey 31 0 = regionKey 0 0 ∧
    (loadChunk anvilOkModel stOk 0 0).1 = .ok 2 ∧
    ∃ buf, ((loadChunk anvilOkModel stOk 0 0).2).cache (regionKey 31 0) = some buf ∧
      ∀ f : String → Except ZipError ZipEntry,
        loadChunk anvilOkModel
            { (loadChunk anvilOkModel stOk 0 0).2 with byName := f } 31 0 =
          (anvilReadChunk anvilOkModel buf
            (RegionAndOffset.from_chunk 31 0).region_chunk_x
            (RegionAndOffset.from_chunk 31 0).region_chunk_z,
           { (loadChunk anvilOkModel stOk 0 0).2 with byName := f }) :=
  ⟨rfl, rfl,
    loadChunk_second_load_uses_cache anvilOkModel stOk 0 0 31 0 2 rfl rfl⟩

/-- C9: on a cache miss where decompression succeeds, the buffer is
inserted into the cache before the region-format reader is constructed; if
the reader's construction or its chunk read then fails, `load_chunk`
returns that error but the fully decompressed buffer remains cached, and a
subsequent load of the same region reuses it without archive access
(uniformly in the archive's `by_name` behaviour). -/
theorem loadChunk_failed_decode_keeps_buffer (A : AnvilModel)
    (st : ProviderState) (cx cz : Int) (entry : ZipEntry) (buf : Bytes)
    (e : ChunkLoadError)
    (hmiss : st.cache (regionKey cx cz) = none)
    (hopen : st.byName (region_path st.regionDir
        (RegionAndOffset.from_chunk cx cz).region_x
        (RegionAndOffset.from_chunk cx cz).region_z) = .ok entry)
    (hread : entry.readResult = .ok buf)
    (hfail : anvilReadChunk A buf
        (RegionAndOffset.from_chunk cx cz).region_chunk_x
        (RegionAndOffset.from_chunk cx cz).region_chunk_z = .error e) :
    (loadChunk A st cx cz).1 = .error e ∧
    ((loadChunk A st cx cz).2).cache (regionKey cx cz) = some buf ∧
    ∀ f : String → Except ZipError ZipEntry,
      loadChunk A { (loadChunk A st cx cz).2 with byName := f } cx cz =
        (.error e, { (loadChunk A st cx cz).2 with byName := f }) := by
  have h1 : st.cache ((RegionAndOffset.from_chunk cx cz).region_x,
      (RegionAndOffset.from_chunk cx cz).region_z) = none := hmiss
  have hcached : ((loadChunk A st cx cz).2).cache (regionKey cx cz) = some buf := by
    unfold loadChunk
    simp only [h1, hopen, hread]
    simp [cacheInsert, regionKey]
  refine ⟨?_, hcached, fun f => ?_⟩
  · unfold loadChunk
    simp only [h1, hopen, hread, hfail]
  · have hh := loadChunk_hit A { (loadChunk A st cx cz).2 with byName := f }
      cx cz buf hcached
    rw [hfail] at hh
    exact hh

/-- C9 witness at a concrete input: the entry for region (0, 0)
decompresses to `[7, 7]`, the region-format reader fails with a
malformed-data error, yet the buffer is cached and reused. -/
theorem loadChunk_failed_decode_witness :
    stOk.cache (regionKey 0 0) = none ∧
    stOk.byName (region_path stOk.regionDir
        (RegionAndOffset.from_chunk 0 0).region_x
        (RegionAndOffset.from_chunk 0 0).region_z) =
      .ok { name := "r", size := 2, readResult := .ok [7, 7] } ∧
    anvilReadChunk anvilBadModel [7, 7]
        (RegionAndOffset.from_chunk 0 0).region_chunk_x
        (RegionAndOffset.from_chunk 0 0).region_chunk_z =
      .error (.malformedData 7) ∧
    ((loadChunk anvilBadModel stOk 0 0).1 = .error (.malformedData 7) ∧
      ((loadChunk anvilBadModel stOk 0 0).2).cache (regionKey 0 0) = some [7, 7] ∧
      ∀ f : String → Except ZipError ZipEntry,
        loadChunk anvilBadModel
            { (loadChunk anvilBadModel stOk 0 0).2 with byName := f } 0 0 =
          (.error (.malformedData 7),
           { (loadChunk anvilBadModel stOk 0 0).2 with byName := f })) :=
  ⟨rfl, rfl, rfl,
    loadChunk_failed_decode_keeps_buffer anvilBadModel stOk 0 0
      { name := "r", size := 2, readResult := .ok [7, 7] } [7, 7]
      (ChunkLoadError.malformedData 7) rfl rfl rfl rfl⟩

/-- A single provider operation preserves the region folder path and every
existing cache binding. -/
theorem stepOp_preserves (A : AnvilModel) (st : ProviderState)
    (op : ProviderOp) :
    (stepOp A st op).regionDir = st.regionDir ∧
    ∀ k v, st.cache k = some v → (stepOp A st op).cache k = some v := by
  cases op with
  | save cx cz t => exact ⟨rfl, fun k v h => h⟩
  | load cx cz =>
    rcases hc : st.cache ((RegionAndOffset.from_chunk cx cz).region_x,
        (RegionAndOffset.from_chunk cx cz).region_z) with _ | buf
    · rcases hn : st.byName (region_path st.regionDir
          (RegionAndOffset.from_chunk cx cz).region_x
          (RegionAndOffset.from_chunk cx cz).region_z) with e | entry
      · unfold stepOp loadChunk
        simp only [hc, hn]
        exact ⟨trivial, fun k v h => h⟩
      · rcases hr : entry.readResult with code | buf
        · unfold stepOp loadChunk
          simp only [hc, hn, hr]
          exact ⟨trivial, fun k v h => h⟩
        · unfold stepOp loadChunk
          simp only [hc, hn, hr]
          refine ⟨trivial, fun k v h => ?_⟩
          unfold cacheInsert
          by_cases hk : k = ((RegionAndOffset.from_chunk cx cz).region_x,
              (RegionAndOffset.from_chunk cx cz).region_z)
          · rw [hk] at h
            rw [hc] at h
            exact Option.noConfusion h
          · simp only [hk, if_false]
            exact h
    · unfold stepOp loadChunk
      simp only [hc]
      exact ⟨trivial, fun k v h => h⟩

/-- C8: over every sequence of `load_chunk` / `save_chunk` calls, the
region folder path is never modified and cache bindings are never removed
or overwritten: a buffer bound to a region coordinate stays bound to it,
unchanged, for the provider's lifetime. -/
theorem provider_lifetime_invariants (A : AnvilModel) (ops : List ProviderOp) :
    ∀ st : ProviderState,
      (runOps A st ops).regionDir = st.regionDir ∧
      ∀ k v, st.cache k = some v → (runOps A st ops).cache k = some v := by
  induction ops with
  | nil => exact fun st => ⟨rfl, fun k v h => h⟩
  | cons op rest ih =>
    intro st
    obtain ⟨h1, h2⟩ := stepOp_preserves A st op
    obtain ⟨g1, g2⟩ := ih (stepOp A st op)
    refine ⟨?_, fun k v h => ?_⟩
    · show (runOps A (stepOp A st op) rest).regionDir = st.regionDir
      rw [g1, h1]
    · show (runOps A (stepOp A st op) rest).cache k = some v
      exact g2 k v (h2 k v h)

/-- C8 witness at a concrete input: a pre-populated binding of region
(0, 0) to `[1, 2]` survives, unchanged, a sequence of loads and a save,
and so does the region folder path. -/
theorem provider_lifetime_invariants_witness :
    stCached.cache (0, 0) = some [1, 2] ∧
    (runOps anvilOkModel stCached
      [ProviderOp.load 0 0, ProviderOp.save 1 1 5,
       ProviderOp.load 33 0]).regionDir = stCached.regionDir ∧
    (runOps anvilOkModel stCached
      [ProviderOp.load 0 0, ProviderOp.save 1 1 5,
       ProviderOp.load 33 0]).cache (0, 0) = some [1, 2] :=
  ⟨rfl,
    (provider_lifetime_invariants anvilOkModel
      [ProviderOp.load 0 0, ProviderOp.save 1 1 5,
       ProviderOp.load 33 0] stCached).1,
    (provider_lifetime_invariants anvilOkModel
      [ProviderOp.load 0 0, ProviderOp.save 1 1 5,
       ProviderOp.load 33 0] stCached).2 (0, 0) [1, 2] rfl⟩

/-- When every `by_index` read succeeds, the constructor scan ends with
the starting count plus the number of `region`-named entries, and with the
folder path left by `foldDir`. -/
theorem scanEntries_all_ok (es : List (Except ZipError ZipEntry)) :
    ∀ c d, (∀ x ∈ es, exceptIsOk x = true) →
      scanEntries es c d = .ok (c + countRegion es, foldDir es d) := by
  induction es with
  | nil =>
    intro c d _
    simp [scanEntries, countRegion, foldDir]
  | cons x rest ih =>
    intro c d h
    cases x with
    | error e =>
      have hx := h (Except.error e) (List.mem_cons_self _ _)
      simp [exceptIsOk] at hx
    | ok entry =>
      have hrest : ∀ x ∈ rest, exceptIsOk x = true :=
        fun x hx => h x (List.mem_cons_of_mem _ hx)
      by_cases hm : fileNameOf entry.name = some "region"
      · have h1 : countRegion (Except.ok entry :: rest) = countRegion rest + 1 := by
          simp [countRegion, List.filter_cons, hm]
        have h2 : foldDir (Except.ok entry :: rest) d = foldDir rest entry.name := by
          simp [foldDir, hm]
        rw [h1, h2]
        simp only [scanEntries, if_pos hm]
        rw [ih (c + 1) entry.name hrest]
        have h3 : c + 1 + countRegion rest = c + (countRegion rest + 1) := by omega
        rw [h3]
      · have h1 : countRegion (Except.ok entry :: rest) = countRegion rest := by
          simp [countRegion, List.filter_cons, hm]
        have h2 : foldDir (Except.ok entry :: rest) d = foldDir rest d := by
          simp [foldDir, hm]
        rw [h1, h2]
        simp only [scanEntries, if_neg hm]
        exact ih c d hrest

/-- If the constructor scan returns without panicking, then either nothing
matched (the count is the starting count and the folder path the starting
one) or the returned folder path is the raw name of some scanned entry
whose final path component is `region`. -/
theorem scanEntries_dir_from_match (es : List (Except ZipError ZipEntry)) :
    ∀ c d c' dir, scanEntries es c d = .ok (c', dir) →
      (c' = c ∧ dir = d) ∨
      ∃ e, Except.ok e ∈ es ∧ fileNameOf e.name = some "region" ∧
        dir = e.name := by
  induction es with
  | nil =>
    intro c d c' dir h
    simp only [scanEntries, PanicOr.ok.injEq, Prod.mk.injEq] at h
    exact Or.inl ⟨h.1.symm, h.2.symm⟩
  | cons x rest ih =>
    intro c d c' dir h
    cases x with
    | error e => simp [scanEntries] at h
    | ok entry =>
      by_cases hm : fileNameOf entry.name = some "region"
      · simp only [scanEntries, if_pos hm] at h
        rcases ih (c + 1) entry.name c' dir h with ⟨h1, h2⟩ | ⟨e, he, hm2, hd⟩
        · exact Or.inr ⟨entry, List.mem_cons_self _ _, hm, h2⟩
        · exact Or.inr ⟨e, List.mem_cons_of_mem _ he, hm2, hd⟩
      · simp only [scanEntries, if_neg hm] at h
        rcases ih c d c' dir h with hl | ⟨e, he, hm2, hd⟩
        · exact Or.inl hl
        · exact Or.inr ⟨e, List.mem_cons_of_mem _ he, hm2, hd⟩

/-- A failed `by_index` read anywhere in the listing makes the constructor
scan panic (the source `unwrap`s each read). -/
theorem scanEntries_with_error (es : List (Except ZipError ZipEntry)) :
    ∀ e, Except.error e ∈ es → ∀ c d,
      scanEntries es c d = .panic "called Result::unwrap on an Err value" := by
  induction es with
  | nil =>
    intro e he
    exact absurd he (List.not_mem_nil _)
  | cons x rest ih =>
    intro e he c d
    cases x with
    | error e2 => simp [scanEntries]
    | ok entry =>
      have he2 : Except.error e ∈ rest := by
        rcases List.mem_cons.mp he with h | h
        · exact absurd h (by simp)
        · exact h
      by_cases hm : fileNameOf entry.name = some "region"
      · simp only [scanEntries, if_pos hm]
        exact ih e he2 (c + 1) entry.name
      · simp only [scanEntries, if_neg hm]
        exact ih e he2 c d

/-- C5: over a readable archive, construction scans every entry counting
those whose final path component is literally `region`: a count of 0
aborts with the no-region-folder failure, a count above 1 aborts with the
ambiguous-folder failure — in both cases no provider value is produced —
and a count of exactly 1 yields a provider whose stored folder path is
that entry's full raw path, with an empty cache. -/
theorem zipNew_discovery_policy (r : ZipReader)
    (hopen : r.openResult = .ok ())
    (hent : ∀ x ∈ r.entries, exceptIsOk x = true) :
    (countRegion r.entries = 0 →
      zipNew r = .panic "No region/ folder found, aborting") ∧
    (1 < countRegion r.entries →
      zipNew r = .panic "Found more than one region/ folder, aborting") ∧
    (countRegion r.entries = 1 →
      ∃ e, Except.ok e ∈ r.entries ∧ fileNameOf e.name = some "region" ∧
        zipNew r = .ok { byName := r.byName, regionDir := e.name,
                         cache := fun _ => none }) := by
  have hscan := scanEntries_all_ok r.entries 0 "region/" hent
  refine ⟨fun h0 => ?_, fun h2 => ?_, fun h1 => ?_⟩
  · simp [zipNew, hopen, hscan, h0]
  · have hne : ¬countRegion r.entries = 0 := by omega
    simp [zipNew, hopen, hscan, hne, h2]
  · rcases scanEntries_dir_from_match r.entries 0 "region/"
        (0 + countRegion r.entries) (foldDir r.entries "region/") hscan with
      ⟨hc0, _⟩ | ⟨e, he, hm, hd⟩
    · exact absurd hc0 (by omega)
    · refine ⟨e, he, hm, ?_⟩
      have hne : ¬countRegion r.entries = 0 := by omega
      have hng : ¬1 < countRegion r.entries := by omega
      rw [hd] at hscan
      simp [zipNew, hopen, hscan, hne, hng]

/-- C5 witness at a concrete input: an archive with exactly one
`region`-named folder, `world/region/`, constructs successfully and
stores that full path. -/
theorem zipNew_discovery_policy_witness :
    rOneRegion.openResult = .ok () ∧
    (∀ x ∈ rOneRegion.entries, exceptIsOk x = true) ∧
    countRegion rOneRegion.entries = 1 ∧
    ∃ e, Except.ok e ∈ rOneRegion.entries ∧
      fileNameOf e.name = some "region" ∧
      zipNew rOneRegion = .ok { byName := rOneRegion.byName,
                                regionDir := e.name,
                                cache := fun _ => none } :=
  ⟨rfl, by decide, by decide,
    (zipNew_discovery_policy rOneRegion rfl (by decide)).2.2 (by decide)⟩

/-- C7 counterexample: the source has a single constructor and it always
runs the discovery scan; there is no construction mode that skips the scan
with a caller-supplied fixed path. On an archive that stores region files
directly under `region/` but contains no entry whose final path component
is `region`, the claimed no-discovery mode (modelled from the spec as
`newWithFixedDir`) would succeed with the default path `"region/"`, while
the source's constructor panics instead of using that default. -/
theorem zipNew_no_fixed_dir_mode :
    zipNew rNoRegionDir = .panic "No region/ folder found, aborting" ∧
    newWithFixedDir "region/" rNoRegionDir =
      .ok { byName := rNoRegionDir.byName, regionDir := "region/",
            cache := fun _ => none } :=
  ⟨rfl, rfl⟩

/-- C7 amended: the provider supports a single construction mode,
automatic discovery: whenever construction returns a provider, its stored
folder path is the full raw name of a scanned archive entry whose final
path component is `region`; the default `"region/"` is only the scan's
starting value and no scan-skipping constructor exists. -/
theorem zipNew_ok_dir_is_discovered (r : ZipReader) (p : ProviderState)
    (h : zipNew r = .ok p) :
    ∃ e, Except.ok e ∈ r.entries ∧ fileNameOf e.name = some "region" ∧
      p.regionDir = e.name := by
  unfold zipNew at h
  rcases hop : r.openResult with e2 | u
  · rw [hop] at h
    exact PanicOr.noConfusion h
  · rw [hop] at h
    rcases hs : scanEntries r.entries 0 "region/" with ⟨c, dir⟩ | m
    · rw [hs] at h
      have h' : (if c = 0 then
            PanicOr.panic "No region/ folder found, aborting"
          else if c > 1 then
            PanicOr.panic "Found more than one region/ folder, aborting"
          else PanicOr.ok { byName := r.byName, regionDir := dir,
                            cache := fun _ => none }) = PanicOr.ok p := h
      by_cases h0 : c = 0
      · rw [if_pos h0] at h'
        exact PanicOr.noConfusion h'
      · rw [if_neg h0] at h'
        by_cases h2 : c > 1
        · rw [if_pos h2] at h'
          exact PanicOr.noConfusion h'
        · rw [if_neg h2] at h'
          injection h' with h3
          subst h3
          rcases scanEntries_dir_from_match r.entries 0 "region/" c dir hs with
            ⟨hc0, _⟩ | ⟨e, he, hm, hd⟩
          · exact absurd hc0 h0
          · exact ⟨e, he, hm, hd⟩
    · rw [hs] at h
      exact PanicOr.noConfusion h

/-- C7 amended, witness at a concrete input: construction over an archive
with the single folder `world/region/` succeeds and its stored folder path
is that discovered entry name. -/
theorem zipNew_ok_dir_is_discovered_witness :
    zipNew rOneRegion = .ok { byName := rOneRegion.byName,
                              regionDir := "world/region/",
                              cache := fun _ => none } ∧
    ∃ e, Except.ok e ∈ rOneRegion.entries ∧
      fileNameOf e.name = some "region" ∧
      ({ byName := rOneRegion.byName, regionDir := "world/region/",
         cache := fun _ => none } : ProviderState).regionDir = e.name :=
  ⟨rfl, zipNew_ok_dir_is_discovered rOneRegion _ rfl⟩

/-- C10: construction panics rather than returning an error when the
supplied reader is not a valid zip archive, or when reading any entry by
index during the discovery scan fails: both failures are `unwrap`ped, so
construction over such an archive never returns a value of any kind. -/
theorem zipNew_panics_on_malformed (r : ZipReader) :
    (∀ e, r.openResult = .error e → ∃ m, zipNew r = .panic m) ∧
    (∀ e, Except.error e ∈ r.entries → ∃ m, zipNew r = .panic m) := by
  constructor
  · intro e he
    refine ⟨"called Result::unwrap on an Err value", ?_⟩
    simp [zipNew, he]
  · intro e he
    rcases hop : r.openResult with e2 | u
    · exact ⟨"called Result::unwrap on an Err value", by simp [zipNew, hop]⟩
    · refine ⟨"called Result::unwrap on an Err value", ?_⟩
      have hs := scanEntries_with_error r.entries e he 0 "region/"
      simp [zipNew, hop, hs]

/-- C10 witness at concrete inputs: an invalid zip reader, and an archive
whose single `by_index` read fails; both make the constructor panic. -/
theorem zipNew_panics_witness :
    rBadOpen.openResult = .error .invalidArchive ∧
    (∃ m, zipNew rBadOpen = .panic m) ∧
    Except.error (ZipError.ioError 3) ∈ rBadIndex.entries ∧
    (∃ m, zipNew rBadIndex = .panic m) :=
  ⟨rfl, (zipNew_panics_on_malformed rBadOpen).1 ZipError.invalidArchive rfl,
   List.mem_cons_self _ _,
   (zipNew_panics_on_malformed rBadIndex).2 (ZipError.ioError 3)
     (List.mem_cons_self _ _)⟩
